import Mathlib

/-!
Shallow embedding of the signal-and-execution engine of the trading-bot
repository (files `trading_bot.py` and `test_trading_bot.py`).

Numeric values (closing prices, balances, quantities) are embedded as `ℚ`;
the Python sources use floats, but every claim under scrutiny is about the
algebraic structure of the ledger and the ordering of averages, for which
exact rational arithmetic is the faithful idealisation (the spec itself
calls the amounts "decimals").
-/

namespace TradingBot

/-- The discrete signal values stored in the `signal` column:
`1` (UP), `-1` (DOWN), `0` (FLAT). -/
inductive Signal where
  | up
  | down
  | flat
deriving DecidableEq, Repr

/-- The decision taken by one cycle of `run_bot` after comparing the last
two signal samples. -/
inductive Action where
  | none
  | enterLong
  | exitLong
deriving DecidableEq, Repr

/-- `run_bot` (trading_bot.py lines 208–221, identically test_trading_bot.py
lines 152–163): the nested conditional
`if current_signal != previous_signal:` then
`if current_signal == 1 and previous_signal == -1:` → BUY (ENTER_LONG),
`elif current_signal == -1 and previous_signal == 1:` → SELL (EXIT_LONG),
otherwise no order. -/
def detectTransition (previous current : Signal) : Action :=
  if current ≠ previous then
    if current = .up ∧ previous = .down then .enterLong
    else if current = .down ∧ previous = .up then .exitLong
    else .none
  else .none

/-- The action column obtained by sliding `detectTransition` over the
consecutive pairs of a signal sequence. -/
def actionsOf (sigs : List Signal) : List Action :=
  (sigs.zip sigs.tail).map fun pc => detectTransition pc.1 pc.2

/-- `df['close'].rolling(window=w).mean()` evaluated at row `i`
(0-indexed): pandas uses `min_periods = window`, so the value is NaN
(unavailable, here `none`) until `i + 1 ≥ w`; otherwise it is the mean of
rows `i - w + 1 .. i`.  A window of `0` is rejected by pandas and mapped
to `none` here. -/
def rolling_mean (w : ℕ) (xs : List ℚ) (i : ℕ) : Option ℚ :=
  let pre := xs.take (i + 1)
  if pre.length < w ∨ w = 0 then none
  else some ((pre.drop (pre.length - w)).sum / (w : ℚ))

/-- `calculate_signals` (trading_bot.py lines 88–93, identically
test_trading_bot.py lines 72–77) at row `i`: the column starts at `0`,
is set to `1` where `MA_short > MA_long` and to `-1` where
`MA_short < MA_long`; a comparison against NaN (an unavailable average)
is false in pandas, leaving `0`. -/
def calculate_signal_at (s l : ℕ) (xs : List ℚ) (i : ℕ) : Signal :=
  match rolling_mean s xs i, rolling_mean l xs i with
  | some a, some b => if a > b then .up else if a < b then .down else .flat
  | _, _ => .flat

/-- `df['signal'].iloc[-1]` as computed by one `run_bot` cycle on fetched
closes `xs`, with the default windows S = 20, L = 50. -/
def current_signal (xs : List ℚ) : Signal :=
  calculate_signal_at 20 50 xs (xs.length - 1)

/-- `df['signal'].iloc[-2]` as computed by one `run_bot` cycle on fetched
closes `xs`, with the default windows S = 20, L = 50.  Note that it is
recomputed from the fetched data every cycle; the bot retains no signal
state between cycles. -/
def previous_signal (xs : List ℚ) : Signal :=
  calculate_signal_at 20 50 xs (xs.length - 2)

/-- The action decided by one `run_bot` cycle from fetched closes `xs`. -/
def cycleAction (xs : List ℚ) : Action :=
  detectTransition (previous_signal xs) (current_signal xs)

/-! ## The simulated execution ledger (test_trading_bot.py) -/

/-- `self.digital_balance = {"USDT": initial_balance, "BTC": 0}`:
one free amount per asset (the symbol is fixed to BTCUSDT, so the base
asset is BTC). -/
structure DigitalBalance where
  usdt : ℚ
  base : ℚ
deriving DecidableEq, Repr

/-- The `"type"` field of a trade-log record. -/
inductive TradeType where
  | buy
  | sell
deriving DecidableEq, Repr

/-- One record appended to `self.trade_log`:
`{"type": ..., "quantity": ..., "price": ..., "balance": dict(self.digital_balance)}`.
The `balance` field is a copy (`dict(...)`) of the balance right after the
trade, i.e. a snapshot. -/
structure TradeLogEntry where
  type : TradeType
  quantity : ℚ
  price : ℚ
  balance : DigitalBalance
deriving DecidableEq, Repr

/-- The mutable simulation state: `self.digital_balance` and
`self.trade_log`. -/
structure SimState where
  digital_balance : DigitalBalance
  trade_log : List TradeLogEntry
deriving DecidableEq, Repr

/-- Which branch of `place_order_simulation` executed: `filled` is the
branch that mutates the balance, appends the log record and logs
"Simulated ... order completed."; `insufficientFunds` is the `else`
branch that only logs the "Not enough ..." warning and changes nothing. -/
inductive OrderResult where
  | filled
  | insufficientFunds
deriving DecidableEq, Repr

/-- `place_order_simulation` (test_trading_bot.py lines 85–112), as the
function its body defines: BUY requires `digital_balance["USDT"] >= quantity*price`,
then debits the cost from USDT, credits `quantity` to the base asset and
appends one record holding a snapshot of the resulting balance; SELL
requires `digital_balance[base] >= quantity`, debits `quantity` from the
base asset and credits `quantity*price` to USDT, appending likewise.  On
insufficient funds only a warning is logged and the state is untouched. -/
def place_order_simulation (st : SimState) (side : TradeType) (quantity price : ℚ) :
    SimState × OrderResult :=
  match side with
  | .buy =>
    let cost := quantity * price
    if cost ≤ st.digital_balance.usdt then
      let b : DigitalBalance :=
        { usdt := st.digital_balance.usdt - cost
          base := st.digital_balance.base + quantity }
      ({ digital_balance := b
         trade_log := st.trade_log ++
           [{ type := .buy, quantity := quantity, price := price, balance := b }] },
       .filled)
    else (st, .insufficientFunds)
  | .sell =>
    if quantity ≤ st.digital_balance.base then
      let b : DigitalBalance :=
        { usdt := st.digital_balance.usdt + quantity * price
          base := st.digital_balance.base - quantity }
      ({ digital_balance := b
         trade_log := st.trade_log ++
           [{ type := .sell, quantity := quantity, price := price, balance := b }] },
       .filled)
    else (st, .insufficientFunds)

/-- A sequence of calls to `place_order_simulation`, returning the final
state and the per-call results in call order. -/
def applyTrades (st : SimState) (ts : List (TradeType × ℚ × ℚ)) :
    SimState × List OrderResult :=
  match ts with
  | [] => (st, [])
  | t :: rest =>
    let step := place_order_simulation st t.1 t.2.1 t.2.2
    let tail := applyTrades step.1 rest
    (tail.1, step.2 :: tail.2)

/-- Both per-asset amounts of the balance are non-negative. -/
def NonNeg (b : DigitalBalance) : Prop := 0 ≤ b.usdt ∧ 0 ≤ b.base

instance (b : DigitalBalance) : Decidable (NonNeg b) := by
  unfold NonNeg; infer_instance

/-- `true` exactly on the branch of `place_order_simulation` that executed
a trade. -/
def isFilled : OrderResult → Bool
  | .filled => true
  | .insufficientFunds => false

/-- The PriceWindow average as the spec words it: "the arithmetic mean of
the last *w* pushed closes, or insufficient data if fewer than *w* points
exist yet".  Stated independently of the source's rolling computation, to
be compared with `rolling_mean` at the last row. -/
def averageLastSpec (w : ℕ) (xs : List ℚ) : Option ℚ :=
  if w ≤ xs.length ∧ 0 < w then some ((xs.reverse.take w).sum / (w : ℚ)) else none

/-! ## The durable trade record (`save_trade_log`, test_trading_bot.py
lines 45–52)

`json.dump(self.trade_log, f)` writes the list of trade records as a JSON
array of objects.  The JSON value space is modelled structurally; numbers
are the exact rationals of the embedding. -/

/-- A JSON value as written by `json.dump`. -/
inductive Json where
  | str : String → Json
  | num : ℚ → Json
  | arr : List Json → Json
  | obj : List (String × Json) → Json

/-- The `"type"` field value of a trade record. -/
def tradeTypeName : TradeType → String
  | .buy => "BUY"
  | .sell => "SELL"

/-- Reading the `"type"` field back. -/
def tradeTypeOfName (s : String) : Option TradeType :=
  if s = "BUY" then some .buy
  else if s = "SELL" then some .sell
  else none

/-- One trade record as serialized:
`{"type": ..., "quantity": ..., "price": ..., "balance": {"USDT": ..., "BTC": ...}}`. -/
def encodeEntry (e : TradeLogEntry) : Json :=
  .obj [("type", .str (tradeTypeName e.type)),
        ("quantity", .num e.quantity),
        ("price", .num e.price),
        ("balance", .obj [("USDT", .num e.balance.usdt), ("BTC", .num e.balance.base)])]

/-- Parsing one serialized trade record back. -/
def decodeEntry : Json → Option TradeLogEntry
  | .obj [("type", .str t), ("quantity", .num q), ("price", .num p),
          ("balance", .obj [("USDT", .num u), ("BTC", .num b)])] =>
    (tradeTypeOfName t).map fun ty => ⟨ty, q, p, ⟨u, b⟩⟩
  | _ => none

/-- Parsing a serialized array of trade records, failing if any record is
malformed. -/
def decodeEntries : List Json → Option (List TradeLogEntry)
  | [] => some []
  | j :: js =>
    match decodeEntry j, decodeEntries js with
    | some e, some es => some (e :: es)
    | _, _ => none

/-- `save_trade_log`: the JSON document written to the durable store. -/
def save_trade_log (log : List TradeLogEntry) : Json :=
  .arr (log.map encodeEntry)

/-- Reading the durable store back into a list of trade records. -/
def load_trade_log : Json → Option (List TradeLogEntry)
  | .arr js => decodeEntries js
  | _ => none

/-! ## The simulation loop (test_trading_bot.py `run_bot`, lines 121–172)

The `def place_order_simulation` statement sits at method-body indentation
inside `calculate_signals`, after that method's `return` statements, so it
never executes and in particular never binds a class attribute. -/

/-- The attribute names bound in the body of `class CryptoTradingBot` of
test_trading_bot.py.  `place_order_simulation` is absent: its `def` is
nested inside `calculate_signals` after the `return`, hence never bound on
the class. -/
def testBotClassMethods : List String :=
  ["__init__", "save_trade_log", "get_historical_data", "calculate_signals",
   "log_current_balance", "run_bot"]

/-- `self.<name>(...)` for an order call: attribute lookup on the class,
then the call.  A missing attribute raises `AttributeError`. -/
def callMethod (st : SimState) (name : String) (side : TradeType) (q p : ℚ) :
    Except String SimState :=
  if name ∈ testBotClassMethods then Except.ok (place_order_simulation st side q p).1
  else Except.error "AttributeError"

/-- One iteration of the `while True` body of `run_bot`
(test_trading_bot.py lines 136–172) on freshly fetched closes: compute the
signal column, read its last two values, and on a recognized edge call
`self.place_order_simulation("BUY"/"SELL", 0.001, close.iloc[-1])`; any
exception is caught by the `except` handler, which only logs and sleeps,
leaving the state as it was when the exception was raised. -/
def run_bot_cycle (st : SimState) (closes : List ℚ) : SimState :=
  let current := current_signal closes
  let previous := previous_signal closes
  let price := closes.getLastD 0
  let attempt : Except String SimState :=
    if current ≠ previous then
      if current = .up ∧ previous = .down then
        callMethod st "place_order_simulation" .buy (1 / 1000) price
      else if current = .down ∧ previous = .up then
        callMethod st "place_order_simulation" .sell (1 / 1000) price
      else Except.ok st
    else Except.ok st
  match attempt with
  | .ok next => next
  | .error _ => st

/-- The state `run_bot` holds at construction:
`{"USDT": 10000, "BTC": 0}` and an empty trade log. -/
def initSimState : SimState :=
  { digital_balance := { usdt := 10000, base := 0 }, trade_log := [] }

/-! ## Edge detection -/

theorem detectTransition_eq_enterLong (p c : Signal) :
    detectTransition p c = .enterLong ↔ (p = .down ∧ c = .up) := by
  cases p <;> cases c <;> simp [detectTransition]

theorem detectTransition_eq_exitLong (p c : Signal) :
    detectTransition p c = .exitLong ↔ (p = .up ∧ c = .down) := by
  cases p <;> cases c <;> simp [detectTransition]

theorem detectTransition_eq_none (p c : Signal) :
    detectTransition p c = .none ↔
      ¬(p = .down ∧ c = .up) ∧ ¬(p = .up ∧ c = .down) := by
  cases p <;> cases c <;> simp [detectTransition]

theorem actionsOf_getElem? (sigs : List Signal) (i : ℕ) :
    (actionsOf sigs)[i]? =
      (sigs[i]?).bind fun p => (sigs[i + 1]?).map fun c => detectTransition p c := by
  unfold actionsOf
  rw [List.getElem?_map, show sigs.zip sigs.tail = List.zipWith Prod.mk sigs sigs.tail from rfl,
    List.getElem?_zipWith', List.getElem?_tail]
  cases sigs[i]? <;> cases sigs[i + 1]? <;> rfl

/-- C1: `detectTransition` is a strict edge trigger: ENTER_LONG exactly on
the pair (DOWN, UP), EXIT_LONG exactly on (UP, DOWN), NONE on every other
pairing; consequently, sliding it over a signal sequence produces
ENTER_LONG (resp. EXIT_LONG) at exactly the positions of a DOWN→UP
(resp. UP→DOWN) boundary, e.g. UP,UP,UP,DOWN yields exactly one EXIT_LONG
at that boundary. -/
theorem C1_detectTransition_strict_edge_trigger :
    (∀ p c, detectTransition p c = .enterLong ↔ (p = .down ∧ c = .up)) ∧
    (∀ p c, detectTransition p c = .exitLong ↔ (p = .up ∧ c = .down)) ∧
    (∀ p c, detectTransition p c = .none ↔
      ¬(p = .down ∧ c = .up) ∧ ¬(p = .up ∧ c = .down)) ∧
    (∀ (sigs : List Signal) (i : ℕ), (actionsOf sigs)[i]? = some .enterLong ↔
      (sigs[i]? = some .down ∧ sigs[i + 1]? = some .up)) ∧
    (∀ (sigs : List Signal) (i : ℕ), (actionsOf sigs)[i]? = some .exitLong ↔
      (sigs[i]? = some .up ∧ sigs[i + 1]? = some .down)) ∧
    actionsOf [.up, .up, .up, .down] = [.none, .none, .exitLong] := by
  refine ⟨detectTransition_eq_enterLong, detectTransition_eq_exitLong,
    detectTransition_eq_none, ?_, ?_, rfl⟩
  · intro sigs i
    rw [actionsOf_getElem?]
    cases hp : sigs[i]? with
    | none => simp
    | some p =>
      cases hc : sigs[i + 1]? with
      | none => simp
      | some c => simpa using detectTransition_eq_enterLong p c
  · intro sigs i
    rw [actionsOf_getElem?]
    cases hp : sigs[i]? with
    | none => simp
    | some p =>
      cases hc : sigs[i + 1]? with
      | none => simp
      | some c => simpa using detectTransition_eq_exitLong p c

/-! ## Signal rule -/

/-- C3: the signal at any row is UP exactly when the short average exceeds
the long average, DOWN exactly when it is below, and FLAT when the two are
equal or either is unavailable. -/
theorem C3_signal_rule (s l : ℕ) (xs : List ℚ) (i : ℕ) :
    (calculate_signal_at s l xs i = .up ↔
      ∃ a b, rolling_mean s xs i = some a ∧ rolling_mean l xs i = some b ∧ b < a) ∧
    (calculate_signal_at s l xs i = .down ↔
      ∃ a b, rolling_mean s xs i = some a ∧ rolling_mean l xs i = some b ∧ a < b) ∧
    (calculate_signal_at s l xs i = .flat ↔
      (rolling_mean s xs i = none ∨ rolling_mean l xs i = none ∨
        ∃ a, rolling_mean s xs i = some a ∧ rolling_mean l xs i = some a)) := by
  cases hs : rolling_mean s xs i with
  | none => simp [calculate_signal_at, hs]
  | some a =>
    cases hl : rolling_mean l xs i with
    | none => simp [calculate_signal_at, hs, hl]
    | some b =>
      unfold calculate_signal_at
      rw [hs, hl]
      rcases lt_trichotomy a b with h | h | h
      · simp [h, not_lt.mpr h.le, ne_of_lt h, ne_of_gt h]
      · subst h
        simp [lt_irrefl]
      · simp [h, not_lt.mpr h.le, ne_of_lt h, ne_of_gt h]

/-! ## Rolling mean at the last row -/

/-- C4: at the last row, the source's rolling mean with window `w` is
exactly the spec's PriceWindow average: the arithmetic mean of the last
`w` pushed closes once at least `w` exist, and unavailable
("insufficient data") otherwise. -/
theorem C4_rolling_mean_is_mean_of_last_closes (w : ℕ) (xs : List ℚ) :
    rolling_mean w xs (xs.length - 1) = averageLastSpec w xs := by
  unfold rolling_mean averageLastSpec
  rcases Nat.eq_zero_or_pos w with hw | hw
  · subst hw; simp
  · rcases Nat.eq_zero_or_pos xs.length with hx | hx
    · have hnil : xs = [] := List.length_eq_zero.mp hx
      subst hnil
      simp [Nat.pos_iff_ne_zero.mp hw]
    · have htake : xs.length - 1 + 1 = xs.length := Nat.succ_pred_eq_of_pos hx
      rw [htake, List.take_of_length_le le_rfl]
      by_cases hlen : xs.length < w
      · rw [if_pos (Or.inl hlen), if_neg]
        rintro ⟨hle, -⟩
        exact absurd hle (not_le.mpr hlen)
      · rw [if_neg, if_pos ⟨not_lt.mp hlen, hw⟩, List.take_reverse, List.sum_reverse]
        push_neg
        exact ⟨not_lt.mp hlen, Nat.pos_iff_ne_zero.mp hw⟩

/-! ## The simulated ledger -/

/-- C2: in simulated mode an underfunded order is all-or-nothing: a BUY
with `USDT < quantity*price` (resp. a SELL with `base < quantity`) takes
the insufficient-funds branch and returns the state exactly as it was,
balances and trade log included. -/
theorem C2_insufficient_funds_leaves_state_unchanged (st : SimState) (q p : ℚ) :
    (0 < q → 0 < p → st.digital_balance.usdt < q * p →
      place_order_simulation st .buy q p = (st, .insufficientFunds)) ∧
    (0 < q → 0 < p → st.digital_balance.base < q →
      place_order_simulation st .sell q p = (st, .insufficientFunds)) := by
  constructor
  · intro _ _ h
    simp [place_order_simulation, not_le.mpr h]
  · intro _ _ h
    simp [place_order_simulation, not_le.mpr h]

/-- Witness for C2 at a concrete underfunded BUY and SELL. -/
theorem C2_insufficient_funds_leaves_state_unchanged_witness :
    ((0 : ℚ) < 1 ∧ (0 : ℚ) < 100 ∧
      (⟨⟨10, 0⟩, []⟩ : SimState).digital_balance.usdt < 1 * 100 ∧
      place_order_simulation ⟨⟨10, 0⟩, []⟩ .buy 1 100 = (⟨⟨10, 0⟩, []⟩, .insufficientFunds)) ∧
    ((0 : ℚ) < 2 ∧ (0 : ℚ) < 5 ∧
      (⟨⟨10, 0⟩, []⟩ : SimState).digital_balance.base < 2 ∧
      place_order_simulation ⟨⟨10, 0⟩, []⟩ .sell 2 5 = (⟨⟨10, 0⟩, []⟩, .insufficientFunds)) :=
  ⟨⟨by norm_num, by norm_num, by norm_num,
    (C2_insufficient_funds_leaves_state_unchanged ⟨⟨10, 0⟩, []⟩ 1 100).1
      (by norm_num) (by norm_num) (by norm_num)⟩,
   ⟨by norm_num, by norm_num, by norm_num,
    (C2_insufficient_funds_leaves_state_unchanged ⟨⟨10, 0⟩, []⟩ 2 5).2
      (by norm_num) (by norm_num) (by norm_num)⟩⟩

/-- C6: a funded simulated BUY debits exactly `quantity*price` from USDT
and credits exactly `quantity` to the base asset (symmetrically for SELL),
appending one record snapshotting the result, so the quote value plus the
base holding priced at the trade price is conserved. -/
theorem C6_successful_apply_conserves_value (st : SimState) (q p : ℚ) :
    (q * p ≤ st.digital_balance.usdt →
      place_order_simulation st .buy q p =
        ({ digital_balance := { usdt := st.digital_balance.usdt - q * p
                                base := st.digital_balance.base + q }
           trade_log := st.trade_log ++
             [{ type := .buy, quantity := q, price := p
                balance := { usdt := st.digital_balance.usdt - q * p
                             base := st.digital_balance.base + q } }] }, .filled) ∧
      (st.digital_balance.usdt - q * p) + p * (st.digital_balance.base + q) =
        st.digital_balance.usdt + p * st.digital_balance.base) ∧
    (q ≤ st.digital_balance.base →
      place_order_simulation st .sell q p =
        ({ digital_balance := { usdt := st.digital_balance.usdt + q * p
                                base := st.digital_balance.base - q }
           trade_log := st.trade_log ++
             [{ type := .sell, quantity := q, price := p
                balance := { usdt := st.digital_balance.usdt + q * p
                             base := st.digital_balance.base - q } }] }, .filled) ∧
      (st.digital_balance.usdt + q * p) + p * (st.digital_balance.base - q) =
        st.digital_balance.usdt + p * st.digital_balance.base) := by
  constructor
  · intro h
    exact ⟨by simp [place_order_simulation, h], by ring⟩
  · intro h
    exact ⟨by simp [place_order_simulation, h], by ring⟩

/-- Witness for C6: the spec's scenario {USDT:100, BTC:0}, ENTER_LONG with
quantity 0.001 at price 50000 yields {USDT:50, BTC:0.001} and one BUY
record, plus a funded SELL instance. -/
theorem C6_successful_apply_conserves_value_witness :
    (place_order_simulation ⟨⟨100, 0⟩, []⟩ .buy (1 / 1000) 50000 =
      (⟨⟨50, 1 / 1000⟩, [⟨.buy, 1 / 1000, 50000, ⟨50, 1 / 1000⟩⟩]⟩, .filled)) ∧
    (place_order_simulation ⟨⟨50, 1 / 1000⟩, []⟩ .sell (1 / 1000) 60000 =
      (⟨⟨110, 0⟩, [⟨.sell, 1 / 1000, 60000, ⟨110, 0⟩⟩]⟩, .filled)) := by
  constructor
  · have h := (C6_successful_apply_conserves_value ⟨⟨100, 0⟩, []⟩ (1 / 1000) 50000).1
      (by norm_num)
    rw [h.1]
    norm_num
  · have h := (C6_successful_apply_conserves_value ⟨⟨50, 1 / 1000⟩, []⟩ (1 / 1000) 60000).2
      (by norm_num)
    rw [h.1]
    norm_num

theorem place_order_simulation_nonneg (st : SimState) (side : TradeType) (q p : ℚ)
    (hq : 0 < q) (hp : 0 < p) (h : NonNeg st.digital_balance) :
    NonNeg (place_order_simulation st side q p).1.digital_balance := by
  obtain ⟨hu, hb⟩ := h
  cases side with
  | buy =>
    by_cases hc : q * p ≤ st.digital_balance.usdt
    · simp only [place_order_simulation, if_pos hc]
      exact ⟨sub_nonneg.mpr hc, add_nonneg hb hq.le⟩
    · simp only [place_order_simulation, if_neg hc]
      exact ⟨hu, hb⟩
  | sell =>
    by_cases hc : q ≤ st.digital_balance.base
    · simp only [place_order_simulation, if_pos hc]
      exact ⟨add_nonneg hu (mul_nonneg hq.le hp.le), sub_nonneg.mpr hc⟩
    · simp only [place_order_simulation, if_neg hc]
      exact ⟨hu, hb⟩

/-- C7: non-negativity of both balance entries is preserved by every
sequence of simulated orders with positive quantity and price: the ledger
never applies a trade that would drive a value negative. -/
theorem C7_balances_stay_nonneg (ts : List (TradeType × ℚ × ℚ)) :
    ∀ st : SimState, (∀ t ∈ ts, 0 < t.2.1 ∧ 0 < t.2.2) → NonNeg st.digital_balance →
      NonNeg (applyTrades st ts).1.digital_balance := by
  induction ts with
  | nil => intro st _ h; exact h
  | cons t rest ih =>
    intro st hts h
    have ht := hts t (List.mem_cons_self _ _)
    have hstep := place_order_simulation_nonneg st t.1 t.2.1 t.2.2 ht.1 ht.2 h
    have hrest := ih (place_order_simulation st t.1 t.2.1 t.2.2).1
      (fun u hu => hts u (List.mem_cons_of_mem _ hu)) hstep
    simpa [applyTrades] using hrest

/-- Witness for C7 on a concrete two-trade run from {USDT:100, BTC:0}. -/
theorem C7_balances_stay_nonneg_witness :
    (∀ t ∈ [((TradeType.buy, 1 / 1000, 50000) : TradeType × ℚ × ℚ),
            (TradeType.sell, 2, 5)], 0 < t.2.1 ∧ 0 < t.2.2) ∧
    NonNeg (⟨⟨100, 0⟩, []⟩ : SimState).digital_balance ∧
    NonNeg (applyTrades ⟨⟨100, 0⟩, []⟩
      [(TradeType.buy, 1 / 1000, 50000), (TradeType.sell, 2, 5)]).1.digital_balance := by
  refine ⟨?_, ⟨by norm_num, by norm_num⟩, ?_⟩
  · intro t ht
    simp only [List.mem_cons, List.not_mem_nil, or_false] at ht
    rcases ht with h | h <;> (subst h; exact ⟨by norm_num, by norm_num⟩)
  · exact C7_balances_stay_nonneg _ ⟨⟨100, 0⟩, []⟩
      (by
        intro t ht
        simp only [List.mem_cons, List.not_mem_nil, or_false] at ht
        rcases ht with h | h <;> (subst h; exact ⟨by norm_num, by norm_num⟩))
      ⟨by norm_num, by norm_num⟩

/-! ## Trade recording -/

theorem place_order_simulation_log (st : SimState) (side : TradeType) (q p : ℚ) :
    ((place_order_simulation st side q p).2 = .filled ∧
      ∃ e : TradeLogEntry,
        (place_order_simulation st side q p).1.trade_log = st.trade_log ++ [e] ∧
        e.quantity = q ∧ e.price = p ∧
        e.balance = (place_order_simulation st side q p).1.digital_balance) ∨
    ((place_order_simulation st side q p).2 = .insufficientFunds ∧
      (place_order_simulation st side q p).1 = st) := by
  cases side with
  | buy =>
    by_cases hc : q * p ≤ st.digital_balance.usdt
    · left
      simp only [place_order_simulation, if_pos hc]
      exact ⟨trivial, _, rfl, rfl, rfl, rfl⟩
    · right
      simp only [place_order_simulation, if_neg hc]
      exact ⟨trivial, trivial⟩
  | sell =>
    by_cases hc : q ≤ st.digital_balance.base
    · left
      simp only [place_order_simulation, if_pos hc]
      exact ⟨trivial, _, rfl, rfl, rfl, rfl⟩
    · right
      simp only [place_order_simulation, if_neg hc]
      exact ⟨trivial, trivial⟩

theorem decodeEntry_encodeEntry (e : TradeLogEntry) : decodeEntry (encodeEntry e) = some e := by
  obtain ⟨ty, q, p, b⟩ := e
  obtain ⟨u, v⟩ := b
  cases ty <;> rfl

theorem load_save_trade_log (log : List TradeLogEntry) :
    load_trade_log (save_trade_log log) = some log := by
  unfold load_trade_log save_trade_log
  induction log with
  | nil => rfl
  | cons e rest ih =>
    simp only [List.map_cons, decodeEntries, decodeEntry_encodeEntry]
    rw [show decodeEntries (rest.map encodeEntry) = some rest from ih]

/-- C8: every successful simulated order appends exactly one trade record
(carrying a snapshot of the resulting balances) before returning, a failed
order appends none and changes nothing; over any run the log length equals
its initial length plus the number of successful orders, the log grows
append-only (so written entries are never mutated), and the serialized log
round-trips through the durable store with the same logical values. -/
theorem C8_trade_recorder_exact (st : SimState) (side : TradeType) (q p : ℚ) :
    ((place_order_simulation st side q p).2 = .filled →
      ∃ e : TradeLogEntry,
        (place_order_simulation st side q p).1.trade_log = st.trade_log ++ [e] ∧
        e.quantity = q ∧ e.price = p ∧
        e.balance = (place_order_simulation st side q p).1.digital_balance) ∧
    ((place_order_simulation st side q p).2 = .insufficientFunds →
      (place_order_simulation st side q p).1 = st) ∧
    (∀ (st₀ : SimState) (ts : List (TradeType × ℚ × ℚ)),
      (applyTrades st₀ ts).1.trade_log.length =
        st₀.trade_log.length + ((applyTrades st₀ ts).2.filter isFilled).length ∧
      ∃ new, (applyTrades st₀ ts).1.trade_log = st₀.trade_log ++ new) ∧
    (∀ log : List TradeLogEntry, load_trade_log (save_trade_log log) = some log) := by
  refine ⟨?_, ?_, ?_, load_save_trade_log⟩
  · intro hf
    rcases place_order_simulation_log st side q p with ⟨-, h⟩ | ⟨hr, -⟩
    · exact h
    · rw [hf] at hr; cases hr
  · intro hf
    rcases place_order_simulation_log st side q p with ⟨hr, -⟩ | ⟨-, h⟩
    · rw [hf] at hr; cases hr
    · exact h
  · intro st₀ ts
    induction ts generalizing st₀ with
    | nil => exact ⟨by simp [applyTrades], [], by simp [applyTrades]⟩
    | cons t rest ih =>
      obtain ⟨ihlen, new, ihpre⟩ := ih (place_order_simulation st₀ t.1 t.2.1 t.2.2).1
      rcases place_order_simulation_log st₀ t.1 t.2.1 t.2.2 with
        ⟨hr, e, hlog, -, -, -⟩ | ⟨hr, hst⟩
      · constructor
        · show (applyTrades (place_order_simulation st₀ t.1 t.2.1 t.2.2).1 rest).1.trade_log.length
            = st₀.trade_log.length +
              (((place_order_simulation st₀ t.1 t.2.1 t.2.2).2 ::
                (applyTrades (place_order_simulation st₀ t.1 t.2.1 t.2.2).1 rest).2).filter
                  isFilled).length
          rw [ihlen, hlog, hr]
          simp [isFilled, Nat.add_comm, Nat.add_assoc, Nat.add_left_comm]
        · refine ⟨e :: new, ?_⟩
          show (applyTrades (place_order_simulation st₀ t.1 t.2.1 t.2.2).1 rest).1.trade_log
            = st₀.trade_log ++ (e :: new)
          rw [ihpre, hlog]
          simp
      · constructor
        · show (applyTrades (place_order_simulation st₀ t.1 t.2.1 t.2.2).1 rest).1.trade_log.length
            = st₀.trade_log.length +
              (((place_order_simulation st₀ t.1 t.2.1 t.2.2).2 ::
                (applyTrades (place_order_simulation st₀ t.1 t.2.1 t.2.2).1 rest).2).filter
                  isFilled).length
          rw [ihlen, hst, hr]
          simp [isFilled]
        · refine ⟨new, ?_⟩
          show (applyTrades (place_order_simulation st₀ t.1 t.2.1 t.2.2).1 rest).1.trade_log
            = st₀.trade_log ++ new
          rw [ihpre, hst]

/-- Witness for C8 at a concrete funded BUY and an underfunded SELL. -/
theorem C8_trade_recorder_exact_witness :
    (∃ e : TradeLogEntry,
      (place_order_simulation ⟨⟨100, 0⟩, []⟩ .buy (1 / 1000) 50000).1.trade_log =
        [] ++ [e] ∧
      e.quantity = 1 / 1000 ∧ e.price = 50000 ∧
      e.balance = (place_order_simulation ⟨⟨100, 0⟩, []⟩ .buy (1 / 1000) 50000).1.digital_balance) ∧
    (place_order_simulation ⟨⟨10, 0⟩, []⟩ .sell 1 5).1 = ⟨⟨10, 0⟩, []⟩ := by
  constructor
  · exact (C8_trade_recorder_exact ⟨⟨100, 0⟩, []⟩ .buy (1 / 1000) 50000).1
      (by norm_num [place_order_simulation])
  · exact (C8_trade_recorder_exact ⟨⟨10, 0⟩, []⟩ .sell 1 5).2.1
      (by norm_num [place_order_simulation])

/-! ## Concrete window computations -/

theorem rolling_mean_append_of_le (w : ℕ) (xs ys : List ℚ) (i : ℕ) (h : i + 1 ≤ xs.length) :
    rolling_mean w (xs ++ ys) i = rolling_mean w xs i := by
  unfold rolling_mean
  rw [List.take_append_of_le_length h]

theorem rolling_mean_eq_none (w : ℕ) (xs : List ℚ) (i : ℕ)
    (h : (xs.take (i + 1)).length < w) : rolling_mean w xs i = none := by
  unfold rolling_mean
  exact if_pos (Or.inl h)

theorem rolling_mean_replicate_append (w m : ℕ) (a : ℚ) (ys : List ℚ)
    (hw : 0 < w) (hwy : ys.length ≤ w) (hlen : w ≤ m + ys.length) :
    rolling_mean w (List.replicate m a ++ ys) (m + ys.length - 1) =
      some ((((w - ys.length : ℕ) : ℚ) * a + ys.sum) / (w : ℚ)) := by
  have hpos : 0 < m + ys.length := lt_of_lt_of_le hw hlen
  have hlist : (List.replicate m a ++ ys).length = m + ys.length := by simp
  simp only [rolling_mean]
  rw [Nat.sub_add_cancel hpos, List.take_of_length_le hlist.le, hlist,
    if_neg (by push_neg; exact ⟨hlen, Nat.pos_iff_ne_zero.mp hw⟩)]
  have hd : m + ys.length - w ≤ m := by omega
  rw [List.drop_append_of_le_length (by simpa using hd), List.drop_replicate,
    List.sum_append, List.sum_replicate]
  have hmw : m - (m + ys.length - w) = w - ys.length := by omega
  rw [hmw, nsmul_eq_mul]

theorem calculate_signal_at_eq_up {s l : ℕ} {xs : List ℚ} {i : ℕ} {a b : ℚ}
    (hs : rolling_mean s xs i = some a) (hl : rolling_mean l xs i = some b) (h : b < a) :
    calculate_signal_at s l xs i = .up := by
  unfold calculate_signal_at
  rw [hs, hl]
  simp [h]

theorem calculate_signal_at_eq_down {s l : ℕ} {xs : List ℚ} {i : ℕ} {a b : ℚ}
    (hs : rolling_mean s xs i = some a) (hl : rolling_mean l xs i = some b) (h : a < b) :
    calculate_signal_at s l xs i = .down := by
  unfold calculate_signal_at
  rw [hs, hl]
  simp [h, lt_asymm h]

theorem calculate_signal_at_eq_flat_of_long_none {s l : ℕ} {xs : List ℚ} {i : ℕ}
    (hl : rolling_mean l xs i = none) : calculate_signal_at s l xs i = .flat := by
  unfold calculate_signal_at
  rw [hl]
  cases hsv : rolling_mean s xs i <;> rfl

/-- C9: on the window of 49 closes at 100 followed by one close at 200
(S = 20, L = 50), the long average is exactly 102 (within 0.04 of the
spec's "approximately 102.04"), the short average is
(19·100 + 200)/20 = 105, the signal at the last row is UP, the signal at
the second-to-last row is FLAT (the long average is unavailable there),
and FLAT→UP is not a recognized edge, so the action is NONE. -/
theorem C9_scenario_49x100_then_200 :
    rolling_mean 50 (List.replicate 49 (100 : ℚ) ++ [200]) 49 = some 102 ∧
    |(102 : ℚ) - 10204 / 100| ≤ 1 / 10 ∧
    rolling_mean 20 (List.replicate 49 (100 : ℚ) ++ [200]) 49 = some ((19 * 100 + 200) / 20) ∧
    ((19 * 100 + 200 : ℚ) / 20) = 105 ∧
    current_signal (List.replicate 49 (100 : ℚ) ++ [200]) = .up ∧
    previous_signal (List.replicate 49 (100 : ℚ) ++ [200]) = .flat ∧
    cycleAction (List.replicate 49 (100 : ℚ) ++ [200]) = .none := by
  have hlen : (List.replicate 49 (100 : ℚ) ++ [200]).length = 50 := by simp
  have h50 := rolling_mean_replicate_append 50 49 (100 : ℚ) [200]
    (by norm_num) (by simp) (by simp)
  have h20 := rolling_mean_replicate_append 20 49 (100 : ℚ) [200]
    (by norm_num) (by simp) (by simp)
  norm_num at h50 h20
  have hup : current_signal (List.replicate 49 (100 : ℚ) ++ [200]) = .up := by
    unfold current_signal
    rw [hlen]
    exact calculate_signal_at_eq_up h20 h50 (by norm_num)
  have hflat : previous_signal (List.replicate 49 (100 : ℚ) ++ [200]) = .flat := by
    unfold previous_signal
    rw [hlen]
    exact calculate_signal_at_eq_flat_of_long_none
      (rolling_mean_eq_none 50 _ 48 (by simp))
  refine ⟨h50, by rw [abs_le]; constructor <;> norm_num, by rw [h20]; norm_num, by norm_num, hup, hflat, ?_⟩
  unfold cycleAction
  rw [hup, hflat]
  rfl

/-! ## The signal-sample "invariant" across cycles -/

/-- Counterexample to C5: both bots recompute `previous_signal` from the
freshly fetched data instead of retaining the prior cycle's
`current_signal`.  On the 51-close window of 49 closes at 100 then 90
then 200, row -2 signals DOWN and row -1 signals UP; if two consecutive
cycles fetch this same window (as the live bot does for up to an hour,
refetching the same candles every 60 seconds), both cycles fire
ENTER_LONG: the second cycle's `previous` (DOWN) is not the first cycle's
`current` (UP), and the already-consumed DOWN→UP edge re-fires. -/
theorem C5_counterexample_edge_refires :
    previous_signal (List.replicate 49 (100 : ℚ) ++ [90, 200]) = .down ∧
    current_signal (List.replicate 49 (100 : ℚ) ++ [90, 200]) = .up ∧
    [List.replicate 49 (100 : ℚ) ++ [90, 200],
     List.replicate 49 (100 : ℚ) ++ [90, 200]].map cycleAction =
      [.enterLong, .enterLong] ∧
    previous_signal (List.replicate 49 (100 : ℚ) ++ [90, 200]) ≠
      current_signal (List.replicate 49 (100 : ℚ) ++ [90, 200]) := by
  have hlen : (List.replicate 49 (100 : ℚ) ++ [90, 200]).length = 51 := by simp
  have hsplit : List.replicate 49 (100 : ℚ) ++ [90, 200] =
      (List.replicate 49 (100 : ℚ) ++ [90]) ++ [200] := by simp
  have h50c := rolling_mean_replicate_append 50 49 (100 : ℚ) [90, 200]
    (by norm_num) (by simp) (by simp)
  have h20c := rolling_mean_replicate_append 20 49 (100 : ℚ) [90, 200]
    (by norm_num) (by simp) (by simp)
  norm_num [List.sum_cons] at h50c h20c
  have h50p : rolling_mean 50 (List.replicate 49 (100 : ℚ) ++ [90, 200]) 49 =
      some (4990 / 50) := by
    rw [hsplit, rolling_mean_append_of_le 50 _ [200] 49 (by simp)]
    have h1 := rolling_mean_replicate_append 50 49 (100 : ℚ) [90]
      (by norm_num) (by simp) (by simp)
    norm_num at h1
    rw [h1]
    norm_num
  have h20p : rolling_mean 20 (List.replicate 49 (100 : ℚ) ++ [90, 200]) 49 =
      some (1990 / 20) := by
    rw [hsplit, rolling_mean_append_of_le 20 _ [200] 49 (by simp)]
    have h1 := rolling_mean_replicate_append 20 49 (100 : ℚ) [90]
      (by norm_num) (by simp) (by simp)
    norm_num at h1
    rw [h1]
    norm_num
  have hdown : previous_signal (List.replicate 49 (100 : ℚ) ++ [90, 200]) = .down := by
    unfold previous_signal
    rw [hlen]
    exact calculate_signal_at_eq_down h20p h50p (by norm_num)
  have hup : current_signal (List.replicate 49 (100 : ℚ) ++ [90, 200]) = .up := by
    unfold current_signal
    rw [hlen]
    exact calculate_signal_at_eq_up h20c h50c (by norm_num)
  have hact : cycleAction (List.replicate 49 (100 : ℚ) ++ [90, 200]) = .enterLong := by
    unfold cycleAction
    rw [hdown, hup]
    rfl
  refine ⟨hdown, hup, ?_, ?_⟩
  · rw [List.map_cons, List.map_cons, List.map_nil, hact]
  · rw [hdown, hup]
    simp

/-- C5 (amended): the bots retain no signal state between cycles;
`previous` equals the prior cycle's `current` exactly in the case where
the new fetch extends the prior fetch by one close.  When a fetch repeats
the same data, the same edge fires again (see the counterexample). -/
theorem C5_amended_previous_matches_prior_current_on_one_new_close
    (xs : List ℚ) (c : ℚ) (h : 1 ≤ xs.length) :
    previous_signal (xs ++ [c]) = current_signal xs := by
  unfold previous_signal current_signal
  have hlen : (xs ++ [c]).length = xs.length + 1 := by simp
  rw [hlen, show xs.length + 1 - 2 = xs.length - 1 from by omega]
  unfold calculate_signal_at
  rw [rolling_mean_append_of_le 20 xs [c] (xs.length - 1) (by omega),
    rolling_mean_append_of_le 50 xs [c] (xs.length - 1) (by omega)]

/-- Witness for the amended C5 on a concrete three-close window extended
by one close. -/
theorem C5_amended_witness :
    1 ≤ ([100, 101, 102] : List ℚ).length ∧
    previous_signal (([100, 101, 102] : List ℚ) ++ [103]) =
      current_signal ([100, 101, 102] : List ℚ) :=
  ⟨by norm_num,
    C5_amended_previous_matches_prior_current_on_one_new_close [100, 101, 102] 103 (by norm_num)⟩

/-! ## The simulation loop never trades -/

theorem callMethod_place_order_simulation (st : SimState) (side : TradeType) (q p : ℚ) :
    callMethod st "place_order_simulation" side q p = .error "AttributeError" := by
  unfold callMethod
  rw [if_neg]
  intro hmem
  simp [testBotClassMethods] at hmem

theorem run_bot_cycle_eq (st : SimState) (closes : List ℚ) :
    run_bot_cycle st closes = st := by
  simp only [run_bot_cycle]
  split_ifs <;> simp [callMethod_place_order_simulation]

/-- C10: in the simulation variant, `place_order_simulation` is defined
inside `calculate_signals` after its `return` and never becomes a class
attribute, so every attempted BUY/SELL call raises AttributeError, which
the loop handler swallows; consequently over every run `digital_balance`
and `trade_log` stay exactly at their initial values. -/
theorem C10_simulation_never_trades :
    (∀ (st : SimState) (side : TradeType) (q p : ℚ),
      callMethod st "place_order_simulation" side q p = .error "AttributeError") ∧
    (∀ (st : SimState) (closes : List ℚ), run_bot_cycle st closes = st) ∧
    (∀ fetches : List (List ℚ),
      (fetches.foldl run_bot_cycle initSimState).digital_balance = ⟨10000, 0⟩ ∧
      (fetches.foldl run_bot_cycle initSimState).trade_log = []) := by
  refine ⟨callMethod_place_order_simulation, run_bot_cycle_eq, ?_⟩
  intro fetches
  have hfold : ∀ s : SimState, fetches.foldl run_bot_cycle s = s := by
    induction fetches with
    | nil => intro s; rfl
    | cons cs rest ih =>
      intro s
      rw [List.foldl_cons, run_bot_cycle_eq]
      exact ih s
  rw [hfold]
  exact ⟨rfl, rfl⟩

end TradingBot
